import Mathlib

/-!
A verification development for the F1 reminder bot (`main.py`).

The Python source is shallowly embedded: dictionaries become structures with
`Option`-valued fields (a `none` field models an absent key), raising code is
modelled in `Except PyErr`, and `datetime` instants are modelled as proleptic
Gregorian timestamps in seconds (`Int`).  Network fetch outcomes are inputs of
the embedded functions, since the Python functions only post-process them.
-/

namespace F1

/-- Python exception kinds that the embedded code can raise. -/
inductive PyErr where
  | keyError (key : String)
  | unboundLocal (var : String)
deriving DecidableEq, Repr

/-- Dictionary subscript access `d[key]`: raises `KeyError` when the key is
absent (an absent key is modelled by a `none` field). -/
def getKey (v : Option α) (key : String) : Except PyErr α :=
  match v with
  | some x => Except.ok x
  | none => Except.error (PyErr.keyError key)

/-- The six session kinds of a race weekend. -/
inductive EventType where
  | FirstPractice
  | SecondPractice
  | ThirdPractice
  | Sprint
  | Qualifying
  | Race
deriving DecidableEq, Repr

/-- The Python name of an event type (used in job ids and sub-record keys). -/
def etName : EventType → String
  | .FirstPractice => "FirstPractice"
  | .SecondPractice => "SecondPractice"
  | .ThirdPractice => "ThirdPractice"
  | .Sprint => "Sprint"
  | .Qualifying => "Qualifying"
  | .Race => "Race"

/-- `EVENT_TYPES_ORDERED` from the source: typical occurrence order within a
race weekend, used by the next-event probe. -/
def EVENT_TYPES_ORDERED : List EventType :=
  [.FirstPractice, .SecondPractice, .ThirdPractice, .Sprint, .Qualifying, .Race]

/-- The `event_types` list used by `schedule_all_notifications`. -/
def EVENT_TYPES_PASS : List EventType :=
  [.Race, .Qualifying, .Sprint, .FirstPractice, .SecondPractice, .ThirdPractice]

/-- A `{date, time}` sub-record of a race weekend (e.g. `race['Qualifying']`). -/
structure SessionTimes where
  date : Option String
  time : Option String
deriving DecidableEq, Repr

/-- The `Location` sub-dictionary of a circuit. -/
structure CircuitLoc where
  lat : Option String
  long : Option String
  locality : Option String
  country : Option String
deriving DecidableEq, Repr

/-- The `Circuit` sub-dictionary of a race weekend record. -/
structure CircuitRec where
  circuitId : Option String
  circuitName : Option String
  url : Option String
  location : Option CircuitLoc
deriving DecidableEq, Repr

/-- An Ergast race weekend record: semi-structured, every key may be absent. -/
structure RaceInfo where
  season : Option String
  round : Option String
  raceName : Option String
  url : Option String
  date : Option String
  time : Option String
  circuit : Option CircuitRec
  firstPractice : Option SessionTimes
  secondPractice : Option SessionTimes
  thirdPractice : Option SessionTimes
  sprint : Option SessionTimes
  qualifying : Option SessionTimes
deriving DecidableEq, Repr

/-- The sub-record a non-`Race` event type reads its date/time from
(`race_info[event_type]`); `none` models an absent key. -/
def subRecord (r : RaceInfo) : EventType → Option SessionTimes
  | .FirstPractice => r.firstPractice
  | .SecondPractice => r.secondPractice
  | .ThirdPractice => r.thirdPractice
  | .Sprint => r.sprint
  | .Qualifying => r.qualifying
  | .Race => none

/-! ### A model of `datetime.fromisoformat`

Only the fragment exercised by the bot is modelled: strings of the shape
`YYYY-MM-DD` optionally followed by `T` and `HH[:MM[:SS]]` with an optional
`[+-]HH:MM` offset.  As in CPython, the time-of-day section is split at the
first `-` (preferring it) or else the first `+`, and the part after that sign
must be exactly a five-character `HH:MM` offset.  Fractional seconds,
offset seconds, and non-ASCII digits are not modelled. -/

/-- Numeric value of a decimal digit character. -/
def digitVal (c : Char) : Nat := c.toNat - '0'.toNat

/-- Leap year rule of the proleptic Gregorian calendar. -/
def isLeap (y : Nat) : Bool := y % 4 = 0 && (y % 100 != 0 || y % 400 = 0)

/-- Days in a month. -/
def daysInMonth (y m : Nat) : Nat :=
  if m = 2 then (if isLeap y then 29 else 28)
  else if m = 4 || m = 6 || m = 9 || m = 11 then 30
  else 31

/-- Days in all full years before year `y` (proleptic Gregorian, year 0 on). -/
def daysBeforeYear (y : Nat) : Nat :=
  365 * y + y / 4 - y / 100 + y / 400

/-- Days in the full months of year `y` before month `m`. -/
def daysBeforeMonth (y m : Nat) : Nat :=
  (List.range m).foldl (fun acc k => if 1 ≤ k then acc + daysInMonth y k else acc) 0

/-- Ordinal day count of a civil date (days since 0000-01-01). -/
def ordinalDays (y m d : Nat) : Nat :=
  daysBeforeYear y + daysBeforeMonth y m + (d - 1)

/-- A parsed timezone-aware datetime, as produced by `fromisoformat`:
civil components plus a UTC offset in seconds. -/
structure PyDateTime where
  year : Nat
  month : Nat
  day : Nat
  hour : Nat
  minute : Nat
  second : Nat
  offSeconds : Int
deriving DecidableEq, Repr

/-- The POSIX-style timestamp of a datetime, in seconds (what `.timestamp()`
returns up to a constant epoch shift, which no comparison depends on). -/
def PyDateTime.timestamp (dt : PyDateTime) : Int :=
  (ordinalDays dt.year dt.month dt.day : Int) * 86400
    + (dt.hour * 3600 + dt.minute * 60 + dt.second : Nat) - dt.offSeconds

/-- Split a character list at the first occurrence of `c`:
returns the part before and the part after that occurrence. -/
def splitFirst (c : Char) : List Char → Option (List Char × List Char)
  | [] => none
  | x :: xs =>
    if x = c then some ([], xs)
    else (splitFirst c xs).map (fun p => (x :: p.1, p.2))

/-- Parse `HH`, `HH:MM` or `HH:MM:SS` into seconds of day. -/
def parseHMS (cs : List Char) : Option Nat :=
  match cs with
  | [h1, h2] =>
    if h1.isDigit && h2.isDigit then
      let h := digitVal h1 * 10 + digitVal h2
      if h ≤ 23 then some (h * 3600) else none
    else none
  | [h1, h2, ':', m1, m2] =>
    if h1.isDigit && h2.isDigit && m1.isDigit && m2.isDigit then
      let h := digitVal h1 * 10 + digitVal h2
      let m := digitVal m1 * 10 + digitVal m2
      if h ≤ 23 && m ≤ 59 then some (h * 3600 + m * 60) else none
    else none
  | [h1, h2, ':', m1, m2, ':', s1, s2] =>
    if h1.isDigit && h2.isDigit && m1.isDigit && m2.isDigit && s1.isDigit && s2.isDigit then
      let h := digitVal h1 * 10 + digitVal h2
      let m := digitVal m1 * 10 + digitVal m2
      let s := digitVal s1 * 10 + digitVal s2
      if h ≤ 23 && m ≤ 59 && s ≤ 59 then some (h * 3600 + m * 60 + s) else none
    else none
  | _ => none

/-- Parse a five-character `HH:MM` utc-offset magnitude into seconds. -/
def parseOffset (cs : List Char) : Option Nat :=
  match cs with
  | [o1, o2, ':', o3, o4] =>
    if o1.isDigit && o2.isDigit && o3.isDigit && o4.isDigit then
      let h := digitVal o1 * 10 + digitVal o2
      let m := digitVal o3 * 10 + digitVal o4
      if h ≤ 23 && m ≤ 59 then some (h * 3600 + m * 60) else none
    else none
  | _ => none

/-- Parse the time-of-day section (everything after the date and separator):
split at the first `-` if any, else the first `+`; the remainder must be a
five-character offset.  Returns seconds of day and the signed offset. -/
def parseTimeSection (cs : List Char) : Option (Nat × Int) :=
  match splitFirst '-' cs with
  | some p =>
    match parseHMS p.1, parseOffset p.2 with
    | some secs, some off => some (secs, -(off : Int))
    | _, _ => none
  | none =>
    match splitFirst '+' cs with
    | some p =>
      match parseHMS p.1, parseOffset p.2 with
      | some secs, some off => some (secs, (off : Int))
      | _, _ => none
    | none =>
      match parseHMS cs with
      | some secs => some (secs, 0)
      | none => none

/-- Build a datetime from parsed components. -/
def mkDT (y mo d secs : Nat) (off : Int) : PyDateTime :=
  { year := y, month := mo, day := d
    hour := secs / 3600, minute := secs % 3600 / 60, second := secs % 60
    offSeconds := off }

/-- Parse exactly ten characters `YYYY-MM-DD` with range validation. -/
def parseDate10 (cs : List Char) : Option (Nat × Nat × Nat) :=
  match cs with
  | [y1, y2, y3, y4, s1, mo1, mo2, s2, d1, d2] =>
    if y1.isDigit && y2.isDigit && y3.isDigit && y4.isDigit && s1 = '-'
        && mo1.isDigit && mo2.isDigit && s2 = '-' && d1.isDigit && d2.isDigit then
      let y := digitVal y1 * 1000 + digitVal y2 * 100 + digitVal y3 * 10 + digitVal y4
      let mo := digitVal mo1 * 10 + digitVal mo2
      let d := digitVal d1 * 10 + digitVal d2
      if 1 ≤ mo && mo ≤ 12 && 1 ≤ d && d ≤ daysInMonth y mo then some (y, mo, d)
      else none
    else none
  | _ => none

/-- Model of `datetime.fromisoformat` on a character list: ten date characters
`YYYY-MM-DD`, then end of input or a `T` separator and a time section. -/
def parseIsoChars (cs : List Char) : Option PyDateTime :=
  match parseDate10 (cs.take 10) with
  | none => none
  | some (y, mo, d) =>
    match cs.drop 10 with
    | [] => some (mkDT y mo d 0 0)
    | sep :: tcs =>
      if sep = 'T' then (parseTimeSection tcs).map (fun p => mkDT y mo d p.1 p.2)
      else none

/-- Model of `datetime.fromisoformat` on a string. -/
def pyFromIso (s : String) : Option PyDateTime := parseIsoChars s.data

/-- Replacement of one character under `str.replace('Z', '+00:00')`. -/
def replZChar (c : Char) : List Char :=
  if c = 'Z' then ['+', '0', '0', ':', '0', '0'] else [c]

/-- Model of `str.replace('Z', '+00:00')`: a single-character pattern replace
is a per-character expansion. -/
def pyReplaceZ (s : String) : String :=
  String.mk (s.data.flatMap replZChar)

/-- Model of `str.endswith('Z')` for the one-character suffix. -/
def pyEndsWithZ (s : String) : Bool := s.data.getLast? == some 'Z'

/-- The display rendering of a parsed instant.  The source formats via
`strftime` with weekday and month names; the human-readable text is abstracted
to the numeric components here (no claim inspects it). -/
def renderEventTime (dt : PyDateTime) : String :=
  toString dt.year ++ "-" ++ toString dt.month ++ "-" ++ toString dt.day
    ++ " at " ++ toString dt.hour ++ ":" ++ toString dt.minute ++ " UTC"

/-- The raw `(date, time)` fields `format_event_time` reads for an event type:
`Race` reads the top-level fields, other types read their sub-record; `none`
means the sub-record key is absent (the function's early `return None, None`). -/
def rawFields (r : RaceInfo) (et : EventType) : Option (Option String × Option String) :=
  match et with
  | .Race => some (r.date, r.time)
  | _ =>
    match subRecord r et with
    | some sub => some (sub.date, sub.time)
    | none => none

/-- Model of `format_event_time`: resolves a weekend record and event type to
a display string and a parsed instant, or `none` when unavailable. -/
def formatEventTime (r : RaceInfo) (et : EventType) : Option (String × PyDateTime) :=
  match rawFields r et with
  | none => none
  | some (od, ot) =>
    match od, ot with
    | some d, some t =>
      if d = "" || t = "" then none
      else
        let t' := if pyEndsWithZ t then t else t ++ "Z"
        match pyFromIso (pyReplaceZ (d ++ "T" ++ t')) with
        | some dt => some (renderEventTime dt, dt)
        | none => none
    | _, _ => none

/-! ### Grid data post-processing (`fetch_starting_grid`, `fetch_starting_grid_openf1`)

The HTTP layer is outside the embedding; the functions below model what the
Python code does with an already-decoded response body. -/

/-- A qualifying-result entry as the embed code consumes it: the `position`
value (absent key modelled as `none`) and `Driver.familyName`. -/
structure GridEntry where
  position : Option String
  familyName : Option String
deriving DecidableEq, Repr

/-- An OpenF1 result row (the fields the fallback fetcher reads). -/
structure OpenF1Result where
  position : Option String
  family_name : Option String
  full_name : Option String
deriving DecidableEq, Repr

/-- A reformatted fallback grid entry (`{'position': int(...), 'Driver': ...}`). -/
structure FallbackEntry where
  position : Int
  familyName : String
deriving DecidableEq, Repr

/-- Digits-only numeral value. -/
def natOfDigits (ds : List Char) : Option Nat :=
  if !ds.isEmpty && ds.all Char.isDigit then
    some (ds.foldl (fun acc c => acc * 10 + digitVal c) 0)
  else none

/-- Model of Python `int(str)` on decimal strings: surrounding whitespace is
stripped, an optional sign precedes the digits (underscore grouping and
non-ASCII digits are not modelled). -/
def pyInt (s : String) : Option Int :=
  let cs := ((s.data.dropWhile Char.isWhitespace).reverse.dropWhile Char.isWhitespace).reverse
  match cs with
  | '+' :: ds => (natOfDigits ds).map (fun n => (n : Int))
  | '-' :: ds => (natOfDigits ds).map (fun n => -(n : Int))
  | ds => (natOfDigits ds).map (fun n => (n : Int))

/-- Stable insertion of `x` after every element whose key is strictly
smaller, before the first element whose key is not. -/
def insertByKey (key : α → Int) (x : α) : List α → List α
  | [] => [x]
  | y :: ys => if key y < key x then y :: insertByKey key x ys else x :: y :: ys

/-- Model of Python `list.sort(key=...)`: a stable ascending sort by key
(timsort is stable, and any two stable sorts by the same key agree). -/
def stableSortBy (key : α → Int) : List α → List α
  | [] => []
  | x :: xs => insertByKey key x (stableSortBy key xs)

/-- The sort key `int(x.get('position', 99))` of the primary grid source:
a missing key contributes the integer default `99`; a present value goes
through `int`, whose failure is an exception (`none` here). -/
def sortKeyPrimary (e : GridEntry) : Option Int :=
  match e.position with
  | none => some 99
  | some s => pyInt s

/-- Post-processing of the primary (Ergast) qualifying response, lines
103-111 of the source: an empty result list returns `None`; otherwise the
entries are sorted by `int(x.get('position', 99))`.  If `int` raises on any
entry the broad `except Exception` returns `None` — nothing is discarded. -/
def fetchStartingGridPost (qualifyingResults : List GridEntry) : Option (List GridEntry) :=
  if qualifyingResults.isEmpty then none
  else if qualifyingResults.all (fun e => (sortKeyPrimary e).isSome) then
    some (stableSortBy (fun e => (sortKeyPrimary e).getD 0) qualifyingResults)
  else none

/-- `family_name`, falling back to `full_name` (default `'N/A'`) when the
family name is absent or empty (Python falsiness). -/
def familyOf (r : OpenF1Result) : String :=
  match r.family_name with
  | some s => if s = "" then r.full_name.getD "N/A" else s
  | none => r.full_name.getD "N/A"

/-- The `formatted_grid` loop of the fallback fetcher: rows without a
position, or whose position fails `int`, are skipped (`continue`); the rest
are reformatted. -/
def openf1Formatted (results : List OpenF1Result) : List FallbackEntry :=
  results.filterMap (fun r =>
    match r.position with
    | none => none
    | some p => (pyInt p).map (fun n => FallbackEntry.mk n (familyOf r)))

/-- Post-processing of the OpenF1 results response, lines 169-197: the
reformatted surviving rows sorted ascending by position; an empty response or
an empty reformatted list is `None`. -/
def fetchStartingGridOpenf1Post (results : List OpenF1Result) : Option (List FallbackEntry) :=
  if results.isEmpty then none
  else if (openf1Formatted results).isEmpty then none
  else some (stableSortBy (fun e => e.position) (openf1Formatted results))

/-- A reformatted fallback entry as the embed renderer sees it (`str` of the
integer position). -/
def toGridEntry (e : FallbackEntry) : GridEntry :=
  { position := some (toString e.position), familyName := some e.familyName }

/-! ### Grid table rendering (inside `create_discord_embed`) -/

/-- `f-string` left padding `{s:<n}`: pad on the right with spaces to width
`n` (no-op when already at least that wide). -/
def padRightTo (s : String) (n : Nat) : String :=
  s ++ String.mk (List.replicate (n - s.length) ' ')

/-- One column cell: `f"{('P' + position):<3} {familyName or 'N/A'}"`;
the position subscript raises `KeyError` when the key is absent. -/
def entryCols (e : GridEntry) : Except PyErr String := do
  let p ← getKey e.position "position"
  pure (padRightTo ("P" ++ p) 3 ++ " " ++ e.familyName.getD "N/A")

/-- The pairs loop `for i in range(0, len(grid_data), 2)`: entry `2k` gives
row `k`'s left column and entry `2k+1` (when present) its right column. -/
def gridPairs : List GridEntry → Except PyErr (List (String × String))
  | [] => Except.ok []
  | [e] => do
    let lft ← entryCols e
    pure [(lft, "")]
  | e1 :: e2 :: rest => do
    let lft ← entryCols e1
    let rgt ← entryCols e2
    let rest' ← gridPairs rest
    pure ((lft, rgt) :: rest')

/-- `max_len_left`: the width of the longest left column (starting at 0). -/
def maxLenLeft (ps : List (String × String)) : Nat :=
  ps.foldl (fun m p => max m p.1.length) 0

/-- The final rendered rows: left column padded to `max_len_left`, a ` | `
separator, then the right column. -/
def gridLinesOf (ps : List (String × String)) : List String :=
  ps.map (fun p => padRightTo p.1 (maxLenLeft ps) ++ " | " ++ p.2)

/-- The grid rendering of `create_discord_embed`, as a list of rows. -/
def renderGridLines (g : List GridEntry) : Except PyErr (List String) := do
  let ps ← gridPairs g
  pure (gridLinesOf ps)

/-- The monospace block around the joined rows. -/
def gridFieldValue (lines : List String) : String :=
  "```\n" ++ String.intercalate "\n" lines ++ "\n```"

/-! ### Weather forecast selection (`fetch_weather`) -/

/-- One sample of the forecast list: its epoch timestamp `dt` plus the
remaining payload, abstracted to a string (only `dt` drives selection). -/
structure Forecast where
  dt : Int
  payload : String
deriving DecidableEq, Repr

/-- One iteration of the selection loop: keep `(closest_forecast,
min_time_diff)`, replacing only on a strictly smaller distance; the initial
`None` accumulator models `min_time_diff = inf`, which any sample beats. -/
def forecastStep (eventTs : Int) (acc : Option (Forecast × Nat)) (f : Forecast) :
    Option (Forecast × Nat) :=
  let d := (eventTs - f.dt).natAbs
  match acc with
  | none => some (f, d)
  | some b => if d < b.2 then some (f, d) else acc

/-- The forecast the weather block is built from: the loop of lines 236-241. -/
def closestForecast (eventTs : Int) (l : List Forecast) : Option Forecast :=
  (l.foldl (forecastStep eventTs) none).map Prod.fst

/-! ### The notification composer and scheduler -/

/-- The composed notification payload (the Discord embed): the pieces the
claims can observe; emoji glyphs are abstracted to ASCII tokens. -/
structure Embed where
  title : String
  description : String
  fields : List (String × String)
  footer : String
deriving DecidableEq, Repr

/-- Outcomes of the external fetches consumed while composing one payload:
the weather text and precipitation probability (total: `fetch_weather` never
raises) and the two grid sources' post-processed results. -/
structure Fetched where
  weatherText : String
  weatherPop : Nat
  gridPrimary : Option (List GridEntry)
  gridFallback : Option (List FallbackEntry)
deriving DecidableEq, Repr

/-- The event-type icon, `event_emoji_map` with glyphs abstracted to tokens. -/
def eventEmoji : EventType → String
  | .Race => "(race-car)"
  | .Qualifying => "(stopwatch)"
  | .Sprint => "(dash)"
  | _ => "(wrench)"

/-- The configured bot display name (default value of `BOT_NAME`). -/
def BOT_NAME : String := "F1 Reminder Bot"

/-- The starting-grid block of `create_discord_embed` (`Race` events only):
season and round are subscripted for the primary fetch; when the primary
outcome is `None`, `circuitId` is subscripted for the fallback; a present,
non-empty grid is rendered into the monospace field, and an empty or absent
grid yields no field. -/
def gridFieldOf (env : Fetched) (circuit : CircuitRec) (r : RaceInfo)
    (et : EventType) : Except PyErr (Option (String × String)) :=
  if et = EventType.Race then do
    let _season ← getKey r.season "season"
    let _round ← getKey r.round "round"
    let gridData : Option (List GridEntry) ←
      match env.gridPrimary with
      | some g => pure (some g)
      | none => do
        let _cid ← getKey circuit.circuitId "circuitId"
        pure (env.gridFallback.map (fun l => l.map toGridEntry))
    match gridData with
    | some g =>
      if !g.isEmpty then do
        let lines ← renderGridLines g
        if !lines.isEmpty then
          pure (some ("(flag) Starting Grid", gridFieldValue lines))
        else pure none
      else pure none
    | none => pure none
  else pure none

/-- Model of `create_discord_embed`: performs the record subscripts in source
order (each can raise `KeyError`), renders the grid block for `Race` events
from the primary source or, when that returned `None`, the fallback source
(which first subscripts `circuitId`), and assembles the embed. -/
def createDiscordEmbed (env : Fetched) (r : RaceInfo) (et : EventType)
    (eventTimeStr : String) (dt : PyDateTime) : Except PyErr (Embed × String) := do
  let emoji := eventEmoji et
  let circuit ← getKey r.circuit "Circuit"
  let loc ← getKey circuit.location "Location"
  let lat ← getKey loc.lat "lat"
  let lon ← getKey loc.long "long"
  let mapsUrl := "https://www.google.com/maps?q=" ++ lat ++ "," ++ lon ++ "&t=k&z=16"
  let rainRadarUrl := "https://www.rainviewer.com/weather-radar-map-live.html?loc="
      ++ lat ++ "," ++ lon ++ ",9&oCS=1&c=3&o=83&lm=1&layer=radar&sm=1&sn=1"
  let weatherFieldValue := env.weatherText ++ "\n(umbrella) Rain Chance: "
      ++ toString env.weatherPop ++ "% ([Radar](" ++ rainRadarUrl ++ "))"
  let unixTimestamp := dt.timestamp
  let gridField ← gridFieldOf env circuit r et
  let raceName ← getKey r.raceName "raceName"
  let raceUrl ← getKey r.url "url"
  let round ← getKey r.round "round"
  let circuitName ← getKey circuit.circuitName "circuitName"
  let circuitUrl ← getKey circuit.url "url"
  let locality ← getKey loc.locality "locality"
  let country ← getKey loc.country "country"
  let season ← getKey r.season "season"
  let baseFields : List (String × String) := [
    (etName et ++ " Start Time", "<t:" ++ toString unixTimestamp ++ ":R> (" ++ eventTimeStr ++ ")"),
    ("Round", round),
    ("Circuit", "[" ++ circuitName ++ "](" ++ circuitUrl ++ ") ([Map](" ++ mapsUrl ++ "))"),
    ("Location", locality ++ ", " ++ country),
    (":cloud: Weather Forecast", weatherFieldValue),
    ("Live Timings", "[F1 Dashboard](https://f1-dash.com/dashboard)"),
    ("(radio) Radio Transcripts", "[Box Box Radio](https://www.boxbox-radio.com/radios)")]
  let fields := match gridField with
    | some gf => baseFields ++ [gf]
    | none => baseFields
  pure ({ title := emoji ++ " F1 " ++ etName et ++ " Reminder!",
          description := "The **" ++ etName et ++ "** session for the **[" ++ raceName
            ++ "](" ++ raceUrl ++ ")** is starting soon!",
          fields := fields,
          footer := BOT_NAME ++ " - Season " ++ season }, emoji)

/-- A job of the scheduler's live set: unique id, fire instant, payload. -/
structure Job where
  id : String
  runDate : Int
  embed : Embed
deriving DecidableEq, Repr

/-- `scheduler.add_job(..., id=..., replace_existing=True)`: any job carrying
the same id is removed, then the new job is registered. -/
def addJob (jobs : List Job) (j : Job) : List Job :=
  jobs.filter (fun x => x.id != j.id) ++ [j]

/-- Number of live jobs carrying a given id. -/
def countId (jobs : List Job) (i : String) : Nat :=
  (jobs.filter (fun x => x.id == i)).length

/-- The unique job id `f"{season}_{round}_{event_type}_notification"`. -/
def jobIdOf (season roundNo : String) (et : EventType) : String :=
  season ++ "_" ++ roundNo ++ "_" ++ etName et ++ "_notification"

/-- Model of `schedule_event_notification` (`evaluate`): resolve the start
instant; no-op if unavailable or if `start - lead` is not strictly in the
future; otherwise build the payload now and register/replace the job.  The
`raceName`, `season` and `round` subscripts of the log line and the job id
can raise, as in the source. -/
def scheduleEventNotification (lead : Nat) (now : Int) (env : Fetched)
    (jobs : List Job) (r : RaceInfo) (et : EventType) : Except PyErr (List Job) :=
  match formatEventTime r et with
  | none => Except.ok jobs
  | some (timeStr, dt) =>
    let notificationTime : Int := dt.timestamp - (lead * 60 : Nat)
    if now < notificationTime then do
      let _name ← getKey r.raceName "raceName"
      let pair ← createDiscordEmbed env r et timeStr dt
      let season ← getKey r.season "season"
      let round ← getKey r.round "round"
      Except.ok (addJob jobs
        { id := jobIdOf season round et, runDate := notificationTime, embed := pair.1 })
    else Except.ok jobs

/-- Model of the scheduling pass of `schedule_all_notifications`: every
weekend record crossed with every event type, from an empty job set; an
uncaught exception aborts the remaining iterations. -/
def runPass (lead : Nat) (now : Int) (env : Fetched) (schedule : List RaceInfo) :
    Except PyErr (List Job) :=
  schedule.foldlM (fun jobs r =>
    EVENT_TYPES_PASS.foldlM (fun js et => scheduleEventNotification lead now env js r et) jobs) []

/-! ### The next-event probe (`find_and_send_next_event`) -/

/-- The candidate tracked by the probe's four loop variables. -/
structure Candidate where
  race : RaceInfo
  event : EventType
  timeStr : String
  dt : PyDateTime
deriving DecidableEq, Repr

/-- One probe iteration: a resolvable, strictly-future session replaces the
tracked candidate only when its instant is strictly smaller. -/
def nextEventStep (now : Int) (acc : Option Candidate) (r : RaceInfo) (et : EventType) :
    Option Candidate :=
  match formatEventTime r et with
  | none => acc
  | some (ts, dt) =>
    if now < dt.timestamp then
      match acc with
      | none => some ⟨r, et, ts, dt⟩
      | some b => if dt.timestamp < b.dt.timestamp then some ⟨r, et, ts, dt⟩ else acc
    else acc

/-- The probe's scan: weekends in schedule order, event types in
`EVENT_TYPES_ORDERED` within each weekend. -/
def findNextEvent (schedule : List RaceInfo) (now : Int) : Option Candidate :=
  schedule.foldl (fun acc r =>
    EVENT_TYPES_ORDERED.foldl (fun a et => nextEventStep now a r et) acc) none

/-- The candidate a single `(weekend, event type)` pair contributes to the
probe: its resolved session when strictly future, nothing otherwise. -/
def candOf (now : Int) (r : RaceInfo) (et : EventType) : Option Candidate :=
  match formatEventTime r et with
  | none => none
  | some (ts, dt) => if now < dt.timestamp then some ⟨r, et, ts, dt⟩ else none

/-- The probe's candidate pool in its encounter order: every resolvable,
strictly-future `(weekend, event type)` pair, weekends in schedule order and
event types in `EVENT_TYPES_ORDERED` within each weekend. -/
def candidatesOf : List RaceInfo → Int → List Candidate
  | [], _ => []
  | r :: rs, now => EVENT_TYPES_ORDERED.filterMap (candOf now r) ++ candidatesOf rs now

/-- The key the probe minimizes: the candidate's start instant. -/
def candKey (c : Candidate) : Int := c.dt.timestamp

/-! ### The delivery sink (`send_discord_notification`) -/

/-- What `requests.post` did: returned a response (any status code) or raised
a transport-level exception before a response existed. -/
inductive PostOutcome where
  | response (status : Nat) (body : String)
  | transportError
deriving DecidableEq, Repr

/-- `requests.Response` truthiness (`__bool__` returns `self.ok`). -/
def responseOk (status : Nat) : Bool := status < 400

/-- Model of `send_discord_notification`: returns the printed log lines, or
the exception the function lets escape.  A missing webhook URL is a logged
no-op.  On an error status, `raise_for_status` raises and the handler's
`if response:` tests the response's truthiness — which is `False` for error
statuses, so the status/body prints are skipped.  On a transport error the
handler reads the never-assigned local `response`, an `UnboundLocalError`. -/
def sendDiscordNotification (webhookUrl : Option String) (description : String)
    (outcome : PostOutcome) : Except PyErr (List String) :=
  match webhookUrl with
  | none => Except.ok ["Error: DISCORD_WEBHOOK_URL not set in .env file."]
  | some _ =>
    match outcome with
    | .response status body =>
      if responseOk status then
        Except.ok ["Successfully sent notification for: " ++ description]
      else
        if responseOk status then
          Except.ok ["Error sending Discord notification",
            "Response status: " ++ toString status, "Response text: " ++ body]
        else
          Except.ok ["Error sending Discord notification"]
    | .transportError => Except.error (PyErr.unboundLocal "response")

/-! ## Theorems -/

/-- C3: for every weekend record and event type, an absent sub-record, an
absent or empty date/time field, or a date/time string the parser rejects all
make the Time/Event Resolver return "unavailable" (`none`); the embedded
function is total, so no exception can escape it. -/
theorem resolver_unavailable (r : RaceInfo) (et : EventType) :
    (et ≠ EventType.Race → subRecord r et = none → formatEventTime r et = none) ∧
    (∀ od ot, rawFields r et = some (od, ot) →
      od = none ∨ od = some "" ∨ ot = none ∨ ot = some "" → formatEventTime r et = none) ∧
    (∀ d t, rawFields r et = some (some d, some t) →
      pyFromIso (pyReplaceZ (d ++ "T" ++ (if pyEndsWithZ t then t else t ++ "Z"))) = none →
      formatEventTime r et = none) := by
  refine ⟨?_, ?_, ?_⟩
  · intro hne hsub
    cases et with
    | Race => exact absurd rfl hne
    | _ => simp [formatEventTime, rawFields, hsub]
  · intro od ot hraw hcase
    unfold formatEventTime
    rw [hraw]
    rcases hcase with h | h | h | h
    · subst h; rfl
    · subst h
      cases ot with
      | none => rfl
      | some t => simp
    · subst h; cases od <;> rfl
    · subst h
      cases od with
      | none => rfl
      | some d => simp
  · intro d t hraw hparse
    unfold formatEventTime
    rw [hraw]
    simp only [hparse]
    split <;> rfl

/-- A weekend record with no `Qualifying` sub-record. -/
def rNoQual : RaceInfo :=
  ⟨some "2099", some "1", some "GP", some "u", some "2099-06-09", some "14:00:00Z",
    none, none, none, none, none, none⟩

/-- A weekend record whose race time string does not parse. -/
def rBadTime : RaceInfo := { rNoQual with time := some "garbage" }

/-- Witness for C3 at concrete inputs. -/
theorem resolver_unavailable_witness :
    formatEventTime rNoQual EventType.Qualifying = none ∧
    formatEventTime rBadTime EventType.Race = none := by
  constructor
  · exact (resolver_unavailable rNoQual EventType.Qualifying).1 (by decide) (by decide)
  · exact (resolver_unavailable rBadTime EventType.Race).2.2 "2099-06-09" "garbage"
      (by decide) (by decide)

/-- C1: `evaluate` is a no-op when the start instant is unresolvable or when
`fire_instant = start - lead` is not strictly after now (no job is created and
the job set is returned unchanged, so nothing is added late or retroactively);
when the fire instant is strictly future and the payload builds, it registers
exactly the job for this session's identity at that fire instant. -/
theorem evaluate_gate (lead : Nat) (now : Int) (env : Fetched) (jobs : List Job)
    (r : RaceInfo) (et : EventType) :
    (formatEventTime r et = none →
      scheduleEventNotification lead now env jobs r et = Except.ok jobs) ∧
    (∀ ts dt, formatEventTime r et = some (ts, dt) →
      dt.timestamp - (lead * 60 : Nat) ≤ now →
      scheduleEventNotification lead now env jobs r et = Except.ok jobs) ∧
    (∀ ts dt nm sz rd e, formatEventTime r et = some (ts, dt) →
      now < dt.timestamp - (lead * 60 : Nat) →
      r.raceName = some nm → r.season = some sz → r.round = some rd →
      createDiscordEmbed env r et ts dt = Except.ok e →
      scheduleEventNotification lead now env jobs r et =
        Except.ok (addJob jobs
          ⟨jobIdOf sz rd et, dt.timestamp - (lead * 60 : Nat), e.1⟩)) := by
  refine ⟨?_, ?_, ?_⟩
  · intro h
    unfold scheduleEventNotification
    rw [h]
  · intro ts dt h hle
    unfold scheduleEventNotification
    rw [h]
    exact if_neg (not_lt.mpr hle)
  · intro ts dt nm sz rd e h hfut hnm hsz hrd hemb
    unfold scheduleEventNotification
    rw [h]
    simp only [if_pos hfut, hnm, hsz, hrd, hemb, getKey, Except.bind, bind, Except.ok.injEq]

/-- A fully populated circuit location for concrete witnesses. -/
def locW : CircuitLoc :=
  { lat := some "50.4372", long := some "5.9714", locality := some "Stavelot",
    country := some "Belgium" }

/-- A fully populated circuit record for concrete witnesses. -/
def cirW : CircuitRec :=
  { circuitId := some "spa", circuitName := some "Spa-Francorchamps",
    url := some "https://example.org/spa", location := some locW }

/-- A fully populated weekend record: race on 2099-06-09 at 14:00:00Z. -/
def raceW : RaceInfo :=
  { season := some "2099", round := some "7", raceName := some "Test GP",
    url := some "https://example.org/gp", date := some "2099-06-09",
    time := some "14:00:00Z", circuit := some cirW,
    firstPractice := none, secondPractice := none, thirdPractice := none,
    sprint := none,
    qualifying := some { date := some "2099-06-06", time := some "13:00:00Z" } }

/-- Concrete fetch outcomes for witnesses: a four-driver primary grid. -/
def envW : Fetched :=
  { weatherText := "clear", weatherPop := 10,
    gridPrimary := some [⟨some "1", some "Alpha"⟩, ⟨some "2", some "Beta"⟩,
      ⟨some "3", some "Gamma"⟩, ⟨some "4", some "Delta"⟩],
    gridFallback := none }

/-- The instant `raceW`'s race resolves to. -/
def dtW : PyDateTime :=
  { year := 2099, month := 6, day := 9, hour := 14, minute := 0, second := 0, offSeconds := 0 }

/-- The display string `raceW`'s race resolves to. -/
def tsW : String := "2099-6-9 at 14:0 UTC"

/-- The payload composed for `raceW`'s race under `envW`. -/
def embW : Embed × String :=
  (createDiscordEmbed envW raceW EventType.Race tsW dtW).toOption.getD
    (⟨"", "", [], ""⟩, "")

/-- Witness for C1: with lead 180 min and the race at 14:00:00Z, an
evaluation at 13:00:00Z (inside the lead window) creates nothing, an
evaluation at 08:00:00Z creates exactly the identity's job, and an
unresolvable session creates nothing. -/
theorem evaluate_gate_witness :
    scheduleEventNotification 180 66251826000 envW [] raceW EventType.Race = Except.ok [] ∧
    (scheduleEventNotification 180 66251808000 envW [] raceW EventType.Race).map
        (fun js => countId js (jobIdOf "2099" "7" EventType.Race)) = Except.ok 1 ∧
    scheduleEventNotification 180 0 envW [] rNoQual EventType.Qualifying = Except.ok [] := by
  refine ⟨?_, ?_, ?_⟩
  · exact (evaluate_gate 180 66251826000 envW [] raceW EventType.Race).2.1 tsW dtW
      (by decide) (by decide)
  · rw [(evaluate_gate 180 66251808000 envW [] raceW EventType.Race).2.2 tsW dtW
      "Test GP" "2099" "7" embW (by decide) (by decide) rfl rfl rfl (by rfl)]
    rfl
  · exact (evaluate_gate 180 0 envW [] rNoQual EventType.Qualifying).1 (by decide)

/-- Removing jobs with the new job's id commutes with `addJob`. -/
theorem filter_addJob (jobs : List Job) (j : Job) :
    (addJob jobs j).filter (fun x => x.id != j.id) = jobs.filter (fun x => x.id != j.id) := by
  simp [addJob, List.filter_append, List.filter_filter]

/-- Registering the same job twice is the same as registering it once. -/
theorem addJob_idem (jobs : List Job) (j : Job) :
    addJob (addJob jobs j) j = addJob jobs j := by
  conv_lhs => rw [addJob, filter_addJob]
  rfl

/-- After `addJob`, exactly one live job carries the new job's id. -/
theorem countId_addJob_self (jobs : List Job) (j : Job) :
    countId (addJob jobs j) j.id = 1 := by
  simp [countId, addJob, List.filter_append, List.filter_filter]

/-- `addJob` keeps every per-id count at most one. -/
theorem countId_addJob_le (jobs : List Job) (j : Job) (i : String)
    (h : countId jobs i ≤ 1) : countId (addJob jobs j) i ≤ 1 := by
  by_cases hij : i = j.id
  · subst hij
    rw [countId_addJob_self]
  · unfold countId addJob
    rw [List.filter_append, List.length_append]
    have h1 : (List.filter (fun x => x.id == i) [j]).length = 0 := by
      have hb : (j.id == i) = false := beq_eq_false_iff_ne.mpr (Ne.symm hij)
      simp [List.filter, hb]
    have h2 : ((jobs.filter (fun x => x.id != j.id)).filter (fun x => x.id == i)).length
        ≤ (jobs.filter (fun x => x.id == i)).length :=
      ((List.filter_sublist jobs).filter (fun x => x.id == i)).length_le
    unfold countId at h
    omega

/-- C2: when `evaluate` succeeds it preserves "at most one live job per id";
evaluating the same session again with unchanged data reproduces the same job
set (replacement, not accumulation); and in the creating case the identity's
job count is exactly one. -/
theorem evaluate_dedup (lead : Nat) (now : Int) (env : Fetched) (jobs jobs' : List Job)
    (r : RaceInfo) (et : EventType)
    (h : scheduleEventNotification lead now env jobs r et = Except.ok jobs') :
    (∀ i, countId jobs i ≤ 1 → countId jobs' i ≤ 1) ∧
    scheduleEventNotification lead now env jobs' r et = Except.ok jobs' ∧
    (∀ ts dt sz rd, formatEventTime r et = some (ts, dt) →
      now < dt.timestamp - (lead * 60 : Nat) →
      r.season = some sz → r.round = some rd →
      countId jobs' (jobIdOf sz rd et) = 1) := by
  unfold scheduleEventNotification at h
  cases hfmt : formatEventTime r et with
  | none =>
    rw [hfmt] at h
    cases h
    refine ⟨fun i hi => hi, ?_, ?_⟩
    · unfold scheduleEventNotification
      rw [hfmt]
    · intro ts dt sz rd hsome
      simp at hsome
  | some p =>
    obtain ⟨ts, dt⟩ := p
    rw [hfmt] at h
    dsimp only at h
    by_cases hlt : now < dt.timestamp - (lead * 60 : Nat)
    · rw [if_pos hlt] at h
      cases hnm : r.raceName with
      | none => rw [hnm] at h; simp [getKey, Except.bind, bind] at h
      | some nm =>
      rw [hnm] at h
      cases hemb : createDiscordEmbed env r et ts dt with
      | error e => rw [hemb] at h; simp [getKey, Except.bind, bind] at h
      | ok pair =>
      rw [hemb] at h
      cases hsz : r.season with
      | none => rw [hsz] at h; simp [getKey, Except.bind, bind] at h
      | some sz =>
      rw [hsz] at h
      cases hrd : r.round with
      | none => rw [hrd] at h; simp [getKey, Except.bind, bind] at h
      | some rd =>
      rw [hrd] at h
      simp only [getKey, Except.bind, bind, Except.ok.injEq] at h
      subst h
      refine ⟨?_, ?_, ?_⟩
      · intro i hi
        exact countId_addJob_le jobs _ i hi
      · unfold scheduleEventNotification
        rw [hfmt]
        simp only [getKey, Except.bind, bind, if_pos hlt, hnm, hemb, hsz, hrd,
          Except.ok.injEq]
        exact addJob_idem jobs _
      · intro ts' dt' sz' rd' hsome hlt' hsz' hrd'
        obtain ⟨rfl, rfl⟩ := Prod.mk.inj (Option.some.inj hsome)
        obtain rfl := Option.some.inj hsz'
        obtain rfl := Option.some.inj hrd'
        exact countId_addJob_self jobs _
    · rw [if_neg hlt] at h
      cases h
      refine ⟨fun i hi => hi, ?_, ?_⟩
      · unfold scheduleEventNotification
        rw [hfmt]
        dsimp only
        rw [if_neg hlt]
      · intro ts' dt' sz' rd' hsome hlt' hsz' hrd'
        obtain ⟨rfl, rfl⟩ := Prod.mk.inj (Option.some.inj hsome)
        exact absurd hlt' hlt

/-- The job set after one creating evaluation of `raceW`'s race from empty. -/
def jobs1W : List Job :=
  (scheduleEventNotification 180 66251808000 envW [] raceW EventType.Race).toOption.getD []

/-- Witness for C2: re-evaluating the already-scheduled session leaves the
job set unchanged and its identity holds exactly one job. -/
theorem evaluate_dedup_witness :
    scheduleEventNotification 180 66251808000 envW jobs1W raceW EventType.Race
      = Except.ok jobs1W ∧
    countId jobs1W (jobIdOf "2099" "7" EventType.Race) = 1 := by
  have h : scheduleEventNotification 180 66251808000 envW [] raceW EventType.Race
      = Except.ok jobs1W := by rfl
  exact ⟨(evaluate_dedup 180 66251808000 envW [] jobs1W raceW EventType.Race h).2.1,
    (evaluate_dedup 180 66251808000 envW [] jobs1W raceW EventType.Race h).2.2
      tsW dtW "2099" "7" (by decide) (by decide) rfl rfl⟩

/-- C7 (code bug): on a transport failure the delivery sink does not return
normally — the `except` handler reads the never-assigned local `response`
and raises `UnboundLocalError`; on a non-success HTTP response it returns
but skips the status/body log because an error `Response` is falsy; only the
missing-webhook no-op behaves as described. -/
theorem delivery_sink_bug :
    sendDiscordNotification (some "https://hook.example") "desc" PostOutcome.transportError
      = Except.error (PyErr.unboundLocal "response") ∧
    sendDiscordNotification (some "https://hook.example") "desc"
        (PostOutcome.response 404 "not found")
      = Except.ok ["Error sending Discord notification"] ∧
    sendDiscordNotification none "desc" (PostOutcome.response 404 "not found")
      = Except.ok ["Error: DISCORD_WEBHOOK_URL not set in .env file."] :=
  ⟨rfl, rfl, rfl⟩

/-- Stable insertion permutes to a cons. -/
theorem insertByKey_perm (key : α → Int) (x : α) (l : List α) :
    List.Perm (insertByKey key x l) (x :: l) := by
  induction l with
  | nil => rfl
  | cons y ys ih =>
    unfold insertByKey
    split
    · exact (ih.cons y).trans (List.Perm.swap x y ys)
    · rfl

/-- The stable sort permutes its input. -/
theorem stableSortBy_perm (key : α → Int) (l : List α) : List.Perm (stableSortBy key l) l := by
  induction l with
  | nil => rfl
  | cons x xs ih => exact (insertByKey_perm key x _).trans (ih.cons x)

/-- Stable insertion preserves key-sortedness. -/
theorem insertByKey_sorted (key : α → Int) (x : α) (l : List α)
    (h : l.Pairwise (fun a b => key a ≤ key b)) :
    (insertByKey key x l).Pairwise (fun a b => key a ≤ key b) := by
  induction l with
  | nil => simp [insertByKey]
  | cons y ys ih =>
    rw [List.pairwise_cons] at h
    unfold insertByKey
    split
    · rename_i hlt
      rw [List.pairwise_cons]
      refine ⟨fun z hz => ?_, ih h.2⟩
      rcases List.mem_cons.mp ((insertByKey_perm key x ys).mem_iff.mp hz) with rfl | hz2
      · exact le_of_lt hlt
      · exact h.1 z hz2
    · rename_i hge
      rw [List.pairwise_cons]
      refine ⟨fun z hz => ?_, List.pairwise_cons.mpr h⟩
      rcases List.mem_cons.mp hz with rfl | hz
      · exact not_lt.mp hge
      · exact le_trans (not_lt.mp hge) (h.1 z hz)

/-- The stable sort's output is key-sorted. -/
theorem stableSortBy_sorted (key : α → Int) (l : List α) :
    (stableSortBy key l).Pairwise (fun a b => key a ≤ key b) := by
  induction l with
  | nil => simp [stableSortBy]
  | cons x xs ih => exact insertByKey_sorted key x _ ih

/-- Two fallback rows sharing position 2. -/
def dupRows : List OpenF1Result :=
  [⟨some "2", some "Alpha", none⟩, ⟨some "2", some "Beta", none⟩]

/-- A primary response with one parseable and one unparseable position. -/
def mixedRows : List GridEntry := [⟨some "1", some "Alpha"⟩, ⟨some "x", some "Beta"⟩]

/-- Adjacent strict ascent of an integer list. -/
def ascStrict : List Int → Bool
  | a :: b :: t => decide (a < b) && ascStrict (b :: t)
  | _ => true

/-- C5 (counterexample): the fallback source retains duplicate positions
(output positions `[2, 2]`, not strictly ascending with no duplicates), and
the primary source returns `None` for the whole result when one entry's
position fails to parse, rather than discarding just that entry. -/
theorem grid_sorted_counterexample :
    (fetchStartingGridOpenf1Post dupRows).map
        (fun l => ascStrict (l.map (fun e => e.position))) = some false ∧
    fetchStartingGridPost mixedRows = none := by
  decide

/-- C5 (amended): the fallback source discards entries without a parseable
integer position and sorts the rest ascending by position — non-strictly, so
duplicate positions are retained; the primary source sorts its entries by
`int(position or 99)` without discarding any, and only succeeds when every
present position parses. -/
theorem grid_sorted_amended (results : List OpenF1Result) (qr : List GridEntry)
    (outF : List FallbackEntry) (outP : List GridEntry)
    (hF : fetchStartingGridOpenf1Post results = some outF)
    (hP : fetchStartingGridPost qr = some outP) :
    outF.Pairwise (fun a b => a.position ≤ b.position) ∧
    List.Perm outF (openf1Formatted results) ∧
    outP.Pairwise (fun a b => (sortKeyPrimary a).getD 0 ≤ (sortKeyPrimary b).getD 0) ∧
    List.Perm outP qr ∧ qr.all (fun e => (sortKeyPrimary e).isSome) = true := by
  unfold fetchStartingGridOpenf1Post at hF
  unfold fetchStartingGridPost at hP
  split at hF
  · simp at hF
  split at hF
  · simp at hF
  obtain rfl := Option.some.inj hF
  split at hP
  · simp at hP
  split at hP
  · rename_i hall
    obtain rfl := Option.some.inj hP
    exact ⟨stableSortBy_sorted _ _, stableSortBy_perm _ _,
      stableSortBy_sorted _ _, stableSortBy_perm _ _, hall⟩
  · simp at hP

/-- The fallback rows `dupRows` reformat to. -/
def outFW : List FallbackEntry := [⟨2, "Alpha"⟩, ⟨2, "Beta"⟩]

/-- An unsorted primary response. -/
def qrW : List GridEntry := [⟨some "2", some "Beta"⟩, ⟨some "1", some "Alpha"⟩]

/-- `qrW` sorted by position. -/
def outPW : List GridEntry := [⟨some "1", some "Alpha"⟩, ⟨some "2", some "Beta"⟩]

/-- Witness for the amended C5 at concrete inputs. -/
theorem grid_sorted_amended_witness :
    outFW.Pairwise (fun a b => a.position ≤ b.position) ∧
    List.Perm outFW (openf1Formatted dupRows) ∧
    outPW.Pairwise (fun a b => (sortKeyPrimary a).getD 0 ≤ (sortKeyPrimary b).getD 0) ∧
    List.Perm outPW qrW ∧ qrW.all (fun e => (sortKeyPrimary e).isSome) = true :=
  grid_sorted_amended dupRows qrW outFW outPW (by rfl) (by rfl)

/-- The pure cell text of a grid entry whose position key is present. -/
def entryColText (e : GridEntry) : String :=
  padRightTo ("P" ++ e.position.getD "") 3 ++ " " ++ e.familyName.getD "N/A"

/-- On an entry with a present position, the cell computation succeeds. -/
theorem entryCols_eq (e : GridEntry) (h : e.position.isSome = true) :
    entryCols e = Except.ok (entryColText e) := by
  obtain ⟨p, hp⟩ := Option.isSome_iff_exists.mp h
  simp [entryCols, entryColText, getKey, hp, Except.bind, bind]
  rfl

/-- The pure pair list of the rendering loop: consecutive entries two at a
time, a final odd entry paired with the empty right column. -/
def pairTexts : List GridEntry → List (String × String)
  | [] => []
  | [e] => [(entryColText e, "")]
  | e1 :: e2 :: rest => (entryColText e1, entryColText e2) :: pairTexts rest

/-- When every position is present, the pairs loop computes `pairTexts`. -/
theorem gridPairs_eq : ∀ (l : List GridEntry),
    l.all (fun e => e.position.isSome) = true → gridPairs l = Except.ok (pairTexts l)
  | [], _ => rfl
  | [e], h => by
    have h1 : e.position.isSome = true := by simpa using h
    simp [gridPairs, pairTexts, entryCols_eq e h1, Except.bind, bind]
    rfl
  | e1 :: e2 :: rest, h => by
    rw [List.all_cons, List.all_cons, Bool.and_eq_true, Bool.and_eq_true] at h
    unfold gridPairs pairTexts
    rw [entryCols_eq e1 h.1, entryCols_eq e2 h.2.1, gridPairs_eq rest h.2.2]
    rfl

/-- Row count of the pure pair list: one row per two entries, rounded up. -/
theorem pairTexts_length : ∀ l : List GridEntry, (pairTexts l).length = (l.length + 1) / 2
  | [] => rfl
  | [_] => by simp [pairTexts]
  | _ :: _ :: rest => by
    unfold pairTexts
    rw [List.length_cons, pairTexts_length rest]
    simp only [List.length_cons]
    omega

/-- Row `k` of the pure pair list shows entry `2k` on the left and entry
`2k+1` (empty when past the end) on the right. -/
theorem pairTexts_get : ∀ (l : List GridEntry) (k : Nat),
    (pairTexts l)[k]? = (l[2 * k]?).map (fun e1 =>
      (entryColText e1, ((l[2 * k + 1]?).map entryColText).getD ""))
  | [], k => by simp [pairTexts]
  | [e], k => by
    cases k with
    | zero => simp [pairTexts]
    | succ k =>
      have h1 : 2 * (k + 1) = 2 * k + 1 + 1 := by omega
      have h2 : 2 * (k + 1) + 1 = 2 * k + 1 + 1 + 1 := by omega
      rw [h2, h1]
      simp [pairTexts, List.getElem?_cons_succ]
  | e1 :: e2 :: rest, k => by
    cases k with
    | zero => simp [pairTexts]
    | succ k =>
      have h1 : 2 * (k + 1) = 2 * k + 1 + 1 := by omega
      have h2 : 2 * (k + 1) + 1 = 2 * k + 1 + 1 + 1 := by omega
      rw [pairTexts, List.getElem?_cons_succ, pairTexts_get rest k, h2, h1]
      simp only [List.getElem?_cons_succ]

/-- A lower bound on a fold of `max`. -/
theorem le_foldl_max (f : α → Nat) : ∀ (l : List α) (b : Nat),
    b ≤ l.foldl (fun m p => max m (f p)) b
  | [], _ => le_refl _
  | x :: xs, b => le_trans (le_max_left b (f x)) (le_foldl_max f xs (max b (f x)))

/-- Every member's value bounds into a fold of `max`. -/
theorem mem_le_foldl_max (f : α → Nat) : ∀ (l : List α) (b : Nat), ∀ x ∈ l,
    f x ≤ l.foldl (fun m p => max m (f p)) b
  | x :: xs, b, y, hy => by
    rcases List.mem_cons.mp hy with rfl | hy
    · exact le_trans (le_max_right b (f y)) (le_foldl_max f xs (max b (f y)))
    · exact mem_le_foldl_max f xs (max b (f x)) y hy

/-- Padding to a width at least the string's length gives exactly that width. -/
theorem padRightTo_length (s : String) (n : Nat) (h : s.length ≤ n) :
    (padRightTo s n).length = n := by
  simp only [padRightTo, String.length_append]
  have : (String.mk (List.replicate (n - s.length) ' ')).length = n - s.length := by
    show (List.replicate (n - s.length) ' ').length = n - s.length
    exact List.length_replicate _ _
  omega

/-- Modelled from the spec's sentence for comparison (claim C4): a table that
pairs driver N with driver N + half-the-field — row `k` shows entry `k`
alongside entry `k + ceil(n/2)`. -/
def gridPairsHalf (g : List GridEntry) : Except PyErr (List (String × String)) := do
  let cols ← g.mapM entryCols
  let half := (g.length + 1) / 2
  pure ((List.range half).map (fun k => (cols.getD k "", cols.getD (k + half) "")))

/-- A four-driver grid in position order. -/
def g4 : List GridEntry :=
  [⟨some "1", some "Alpha"⟩, ⟨some "2", some "Beta"⟩,
   ⟨some "3", some "Gamma"⟩, ⟨some "4", some "Delta"⟩]

/-- C4 (counterexample): on a four-driver grid the code renders consecutive
pairs (P1 | P2) and (P3 | P4), not the claimed half-field pairs (P1 | P3)
and (P2 | P4). -/
theorem grid_table_counterexample :
    renderGridLines g4 = Except.ok ["P1  Alpha | P2  Beta", "P3  Gamma | P4  Delta"] ∧
    (gridPairsHalf g4).map gridLinesOf
      = Except.ok ["P1  Alpha | P3  Gamma", "P2  Beta  | P4  Delta"] ∧
    (["P1  Alpha | P2  Beta", "P3  Gamma | P4  Delta"] : List String)
      ≠ ["P1  Alpha | P3  Gamma", "P2  Beta  | P4  Delta"] := by
  refine ⟨rfl, rfl, ?_⟩
  decide

/-- C4 (amended): the rendered table pairs consecutive entries — row `k`
shows entry `2k` (position `2k+1` of a sorted grid) alongside entry `2k+1`
(position `2k+2`), one row per pair with an empty right cell on an odd tail —
and every left column is padded to the width of the longest left cell. -/
theorem grid_table_amended (g : List GridEntry)
    (h : g.all (fun e => e.position.isSome) = true) :
    renderGridLines g = Except.ok (gridLinesOf (pairTexts g)) ∧
    (pairTexts g).length = (g.length + 1) / 2 ∧
    (∀ k, (pairTexts g)[k]? = (g[2 * k]?).map (fun e1 =>
        (entryColText e1, ((g[2 * k + 1]?).map entryColText).getD ""))) ∧
    (∀ p ∈ pairTexts g, (padRightTo p.1 (maxLenLeft (pairTexts g))).length
        = maxLenLeft (pairTexts g)) := by
  refine ⟨?_, pairTexts_length g, pairTexts_get g, ?_⟩
  · unfold renderGridLines
    rw [gridPairs_eq g h]
    rfl
  · intro p hp
    exact padRightTo_length p.1 _ (mem_le_foldl_max (fun q => q.1.length) (pairTexts g) 0 p hp)

/-- Witness for the amended C4 on the four-driver grid. -/
theorem grid_table_amended_witness :
    renderGridLines g4 = Except.ok (gridLinesOf (pairTexts g4)) ∧
    (pairTexts g4).length = (g4.length + 1) / 2 :=
  ⟨(grid_table_amended g4 (by rfl)).1, (grid_table_amended g4 (by rfl)).2.1⟩

/-! ### First-strict-minimum scans (weather selection and next-event probe) -/

/-- One step of a strict-minimum scan: the tracked element is replaced only
on a strictly smaller key, so the first-encountered element wins ties. -/
def minAcc (key : α → Int) (acc : Option α) (x : α) : Option α :=
  match acc with
  | none => some x
  | some b => if key x < key b then some x else acc

/-- The first element of the list attaining the global minimum key. -/
def firstMinBy (key : α → Int) (l : List α) : Option α :=
  l.find? (fun x => l.all (fun y => decide (key x ≤ key y)))

/-- `find?` only depends on the predicate's values on list members. -/
theorem find?_congr_mem {p q : α → Bool} : ∀ (l : List α), (∀ x ∈ l, p x = q x) →
    l.find? p = l.find? q
  | [], _ => rfl
  | x :: xs, h => by
    rw [List.find?_cons, List.find?_cons, h x (List.mem_cons_self x xs)]
    cases hq : q x
    · exact find?_congr_mem xs (fun y hy => h y (List.mem_cons_of_mem x hy))
    · rfl

/-- `find?` at a cons whose head satisfies the predicate. -/
theorem find?_cons_true {p : α → Bool} (a : α) (l : List α) (h : p a = true) :
    (a :: l).find? p = some a := by
  rw [List.find?_cons, h]

/-- `find?` at a cons whose head fails the predicate. -/
theorem find?_cons_false {p : α → Bool} (a : α) (l : List α) (h : p a = false) :
    (a :: l).find? p = l.find? p := by
  rw [List.find?_cons, h]

/-- A strict-minimum scan from a tracked element computes the first global
minimum of the element followed by the scanned list. -/
theorem foldl_minAcc_some (key : α → Int) : ∀ (l : List α) (b : α),
    l.foldl (minAcc key) (some b) = firstMinBy key (b :: l)
  | [], b => by
    simp [firstMinBy, List.find?, List.all]
  | x :: xs, b => by
    rw [List.foldl_cons]
    show xs.foldl (minAcc key) (if key x < key b then some x else some b)
      = firstMinBy key (b :: x :: xs)
    by_cases hlt : key x < key b
    · rw [if_pos hlt, foldl_minAcc_some key xs x]
      unfold firstMinBy
      have hb : ((b :: x :: xs).all (fun y => decide (key b ≤ key y))) = false :=
        List.all_eq_false.mpr ⟨x, List.mem_cons_of_mem b (List.mem_cons_self x xs),
          by simpa using not_le.mpr hlt⟩
      rw [find?_cons_false b (x :: xs) hb]
      refine find?_congr_mem (x :: xs) (fun z hz => ?_)
      cases hq : (x :: xs).all (fun y => decide (key z ≤ key y)) with
      | true =>
        have hzx : key z ≤ key x :=
          of_decide_eq_true (List.all_eq_true.mp hq x (List.mem_cons_self x xs))
        have hzb : decide (key z ≤ key b) = true :=
          decide_eq_true (le_of_lt (lt_of_le_of_lt hzx hlt))
        rw [List.all_cons, hq, hzb, Bool.true_and]
      | false =>
        rw [List.all_cons, hq, Bool.and_false]
    · rw [if_neg hlt, foldl_minAcc_some key xs b]
      have hbx : key b ≤ key x := not_lt.mp hlt
      unfold firstMinBy
      have hpredb : ((b :: x :: xs).all (fun y => decide (key b ≤ key y)))
          = ((b :: xs).all (fun y => decide (key b ≤ key y))) := by
        rw [List.all_cons, List.all_cons, List.all_cons, decide_eq_true hbx, Bool.true_and]
      cases hA : ((b :: xs).all (fun y => decide (key b ≤ key y))) with
      | true =>
        rw [find?_cons_true b xs hA, find?_cons_true b (x :: xs) (hpredb.trans hA)]
      | false =>
        obtain ⟨z, hzm, hzf⟩ := List.all_eq_false.mp hA
        have hzb : key z < key b := not_le.mp (fun hle => hzf (decide_eq_true hle))
        have hzxs : z ∈ xs := by
          rcases List.mem_cons.mp hzm with rfl | h
          · exact absurd le_rfl (fun hle => hzf (decide_eq_true hle))
          · exact h
        rw [find?_cons_false b xs hA, find?_cons_false b (x :: xs) (hpredb.trans hA)]
        have hpx : ((b :: x :: xs).all (fun y => decide (key x ≤ key y))) = false :=
          List.all_eq_false.mpr ⟨z, List.mem_cons_of_mem b (List.mem_cons_of_mem x hzxs),
            by simpa using not_le.mpr (lt_of_lt_of_le hzb hbx)⟩
        rw [find?_cons_false x xs hpx]
        refine find?_congr_mem xs (fun w hw => ?_)
        cases hq : ((b :: xs).all (fun y => decide (key w ≤ key y))) with
        | true =>
          have hwb : key w ≤ key b :=
            of_decide_eq_true (List.all_eq_true.mp hq b (List.mem_cons_self b xs))
          have hwx : decide (key w ≤ key x) = true :=
            decide_eq_true (le_trans hwb hbx)
          simp only [List.all_cons] at hq
          obtain ⟨hq1, hq2⟩ := (Bool.and_eq_true _ _).mp hq
          simp [List.all_cons, hq1, hq2, hwx]
        | false =>
          simp only [List.all_cons] at hq
          rcases Bool.and_eq_false_iff.mp hq with h1 | h2
          · simp [List.all_cons, h1]
          · simp [List.all_cons, h2]

/-- A strict-minimum scan from an empty accumulator computes the first
global minimum of the list. -/
theorem foldl_minAcc_none (key : α → Int) (l : List α) :
    l.foldl (minAcc key) none = firstMinBy key l := by
  cases l with
  | nil => rfl
  | cons x xs =>
    rw [List.foldl_cons]
    show xs.foldl (minAcc key) (some x) = _
    exact foldl_minAcc_some key xs x

/-- A strict-minimum scan never loses a tracked element. -/
theorem foldl_minAcc_isSome (key : α → Int) : ∀ (l : List α) (b : α),
    (l.foldl (minAcc key) (some b)).isSome = true
  | [], _ => rfl
  | x :: xs, b => by
    rw [List.foldl_cons]
    show (xs.foldl (minAcc key) (if key x < key b then some x else some b)).isSome = true
    split
    · exact foldl_minAcc_isSome key xs x
    · exact foldl_minAcc_isSome key xs b

/-- The forecast loop, carrying its `(closest, min_diff)` accumulator, agrees
with the strict-minimum scan keyed by absolute time distance. -/
theorem forecastStep_eq_minAcc (ts : Int) : ∀ (l : List Forecast) (b : Forecast),
    l.foldl (forecastStep ts) (some (b, (ts - b.dt).natAbs)) =
      (l.foldl (minAcc (fun f => ((ts - f.dt).natAbs : Int))) (some b)).map
        (fun f => (f, (ts - f.dt).natAbs))
  | [], _ => rfl
  | x :: xs, b => by
    rw [List.foldl_cons, List.foldl_cons]
    show xs.foldl (forecastStep ts)
        (if (ts - x.dt).natAbs < (ts - b.dt).natAbs
          then some (x, (ts - x.dt).natAbs) else some (b, (ts - b.dt).natAbs)) =
      (xs.foldl (minAcc (fun f => ((ts - f.dt).natAbs : Int)))
        (if ((ts - x.dt).natAbs : Int) < ((ts - b.dt).natAbs : Int)
          then some x else some b)).map (fun f => (f, (ts - f.dt).natAbs))
    by_cases h : (ts - x.dt).natAbs < (ts - b.dt).natAbs
    · rw [if_pos h, if_pos (by exact_mod_cast h)]
      exact forecastStep_eq_minAcc ts xs x
    · rw [if_neg h, if_neg (by exact_mod_cast h)]
      exact forecastStep_eq_minAcc ts xs b

/-- C8: the weather block is built from the forecast sample minimizing the
absolute time distance to the target instant, the first such sample in list
order winning ties (replacement needs a strictly smaller distance); a
non-empty sample list always yields a selection. -/
theorem weather_closest (ts : Int) (l : List Forecast) :
    closestForecast ts l = firstMinBy (fun f => ((ts - f.dt).natAbs : Int)) l ∧
    (l ≠ [] → (closestForecast ts l).isSome = true) := by
  constructor
  · cases l with
    | nil => rfl
    | cons x xs =>
      unfold closestForecast
      rw [List.foldl_cons]
      show (xs.foldl (forecastStep ts) (some (x, (ts - x.dt).natAbs))).map Prod.fst = _
      rw [forecastStep_eq_minAcc ts xs x, foldl_minAcc_some, Option.map_map]
      have hid : (Prod.fst ∘ fun f : Forecast => (f, (ts - f.dt).natAbs)) = id := rfl
      rw [hid, Option.map_id]
      rfl
  · intro hne
    cases l with
    | nil => exact absurd rfl hne
    | cons x xs =>
      unfold closestForecast
      rw [List.foldl_cons]
      show ((xs.foldl (forecastStep ts) (some (x, (ts - x.dt).natAbs))).map Prod.fst).isSome
        = true
      rw [forecastStep_eq_minAcc ts xs x, Option.map_map]
      have hs := foldl_minAcc_isSome (fun f => ((ts - f.dt).natAbs : Int)) xs x
      cases hf : xs.foldl (minAcc fun f => ((ts - f.dt).natAbs : Int)) (some x) with
      | none => rw [hf] at hs; exact absurd hs (by simp)
      | some v => rfl

/-- Three forecast samples around the instant 100. -/
def fcsW : List Forecast := [⟨100, "a"⟩, ⟨40, "b"⟩, ⟨160, "c"⟩]

/-- Witness for C8 on a concrete sample list. -/
theorem weather_closest_witness :
    closestForecast 100 fcsW = firstMinBy (fun f => ((100 - f.dt).natAbs : Int)) fcsW ∧
    (closestForecast 100 fcsW).isSome = true :=
  ⟨(weather_closest 100 fcsW).1, (weather_closest 100 fcsW).2 (by decide)⟩

/-- One probe step is the strict-minimum step on the pair's candidate. -/
theorem nextEventStep_eq (now : Int) (acc : Option Candidate) (r : RaceInfo)
    (et : EventType) :
    nextEventStep now acc r et =
      match candOf now r et with
      | none => acc
      | some c => minAcc candKey acc c := by
  unfold nextEventStep candOf
  cases formatEventTime r et with
  | none => rfl
  | some p =>
    obtain ⟨ts, dt⟩ := p
    dsimp only
    by_cases h : now < dt.timestamp
    · rw [if_pos h, if_pos h]
      cases acc <;> rfl
    · rw [if_neg h, if_neg h]

/-- The probe's inner loop over event types is the strict-minimum scan of the
pairs' candidates. -/
theorem innerFold_eq (now : Int) (r : RaceInfo) : ∀ (ets : List EventType)
    (acc : Option Candidate),
    ets.foldl (fun a et => nextEventStep now a r et) acc =
      (ets.filterMap (candOf now r)).foldl (minAcc candKey) acc
  | [], _ => rfl
  | et :: ets, acc => by
    rw [List.foldl_cons, nextEventStep_eq]
    cases hc : candOf now r et with
    | none =>
      rw [List.filterMap_cons_none hc]
      exact innerFold_eq now r ets acc
    | some c =>
      rw [List.filterMap_cons_some hc, List.foldl_cons]
      exact innerFold_eq now r ets (minAcc candKey acc c)

/-- The probe's nested loops are the strict-minimum scan of the whole
candidate pool. -/
theorem outerFold_eq (now : Int) : ∀ (schedule : List RaceInfo) (acc : Option Candidate),
    schedule.foldl (fun acc r =>
        EVENT_TYPES_ORDERED.foldl (fun a et => nextEventStep now a r et) acc) acc =
      (candidatesOf schedule now).foldl (minAcc candKey) acc
  | [], _ => rfl
  | r :: rs, acc => by
    rw [List.foldl_cons, innerFold_eq now r]
    show _ = (EVENT_TYPES_ORDERED.filterMap (candOf now r)
        ++ candidatesOf rs now).foldl (minAcc candKey) acc
    rw [List.foldl_append]
    exact outerFold_eq now rs _

/-- C10: the next-event probe selects the first candidate, in iteration order
(weekends in schedule order, event types in canonical weekend order), that
attains the earliest strictly-future start instant — a later event replaces
the tracked one only when its instant is strictly smaller, so ties go to the
candidate encountered first. -/
theorem next_event_first_min (schedule : List RaceInfo) (now : Int) :
    findNextEvent schedule now = firstMinBy candKey (candidatesOf schedule now) := by
  unfold findNextEvent
  rw [outerFold_eq now schedule none, foldl_minAcc_none]

/-- A weekend record with a resolvable future race but no `Circuit` key. -/
def badRace : RaceInfo :=
  { season := some "2099", round := some "6", raceName := some "Broken GP",
    url := some "https://example.org/broken", date := some "2099-06-02",
    time := some "14:00:00Z", circuit := none,
    firstPractice := none, secondPractice := none, thirdPractice := none,
    sprint := none, qualifying := none }

/-- C6 (counterexample): with `badRace` first in the schedule, the pass
aborts on its `KeyError` during payload construction before `raceW` — whose
race session gets a job when evaluated in isolation — is ever processed; no
job set is produced at all. -/
theorem pass_isolation_counterexample :
    runPass 180 0 envW [badRace, raceW] = Except.error (PyErr.keyError "Circuit") ∧
    (scheduleEventNotification 180 0 envW [] raceW EventType.Race).map
        (fun js => countId js (jobIdOf "2099" "7" EventType.Race)) = Except.ok 1 :=
  ⟨rfl, rfl⟩

/-- A record whose payload-relevant keys are all present. -/
def wellFormedRace (r : RaceInfo) : Bool :=
  r.raceName.isSome && r.url.isSome && r.season.isSome && r.round.isSome &&
    (r.circuit.map (fun c =>
      c.circuitId.isSome && c.circuitName.isSome && c.url.isSome &&
        (c.location.map (fun l =>
          l.lat.isSome && l.long.isSome && l.locality.isSome && l.country.isSome)).getD
          false)).getD false

/-- The primary grid outcome, when present, has every position key present
(otherwise the grid rendering itself raises `KeyError`). -/
def envGridOk (env : Fetched) : Bool :=
  (env.gridPrimary.map (fun g => g.all (fun e => e.position.isSome))).getD true

/-- Fallback entries always render with a present position key. -/
theorem toGridEntry_all_pos : ∀ (l : List FallbackEntry),
    (l.map toGridEntry).all (fun e => e.position.isSome) = true
  | [] => rfl
  | x :: xs => by
    rw [List.map_cons, List.all_cons]
    simp [toGridEntry, toGridEntry_all_pos xs]

/-- On a well-formed environment and present keys, the grid block builds. -/
theorem gridFieldOf_wf_ok (env : Fetched) (circuit : CircuitRec) (r : RaceInfo)
    (et : EventType) (sz rd cid : String)
    (hsz : r.season = some sz) (hrd : r.round = some rd)
    (hcid : circuit.circuitId = some cid) (henv : envGridOk env = true) :
    ∃ v, gridFieldOf env circuit r et = Except.ok v := by
  unfold gridFieldOf
  by_cases het : et = EventType.Race
  · rw [if_pos het]
    simp only [hsz, hrd, getKey, Except.bind, bind]
    cases hgp : env.gridPrimary with
    | some g =>
      have hall : g.all (fun e => e.position.isSome) = true := by
        unfold envGridOk at henv
        rw [hgp] at henv
        simpa using henv
      simp only [pure, Except.pure]
      by_cases hge : g.isEmpty
      · simp [hge]
      · simp only [hge, Bool.not_false, if_true]
        unfold renderGridLines
        rw [gridPairs_eq g hall]
        simp only [Except.bind, bind, pure, Except.pure]
        split
        · exact ⟨_, rfl⟩
        · exact ⟨_, rfl⟩
    | none =>
      simp only [hcid, getKey, Except.bind, bind, pure, Except.pure]
      cases hgf : env.gridFallback with
      | none => exact ⟨_, rfl⟩
      | some fl =>
        simp only [Option.map_some']
        by_cases hge : (fl.map toGridEntry).isEmpty
        · simp [hge]
        · simp only [hge, Bool.not_false, if_true]
          unfold renderGridLines
          rw [gridPairs_eq _ (toGridEntry_all_pos fl)]
          simp only [Except.bind, bind, pure, Except.pure]
          split
          · exact ⟨_, rfl⟩
          · exact ⟨_, rfl⟩
  · rw [if_neg het]
    exact ⟨_, rfl⟩

/-- On a well-formed record and well-formed grid outcomes, the payload
always builds. -/
theorem createDiscordEmbed_wf_ok (env : Fetched) (r : RaceInfo) (et : EventType)
    (ts : String) (dt : PyDateTime)
    (hwf : wellFormedRace r = true) (henv : envGridOk env = true) :
    ∃ e, createDiscordEmbed env r et ts dt = Except.ok e := by
  unfold wellFormedRace at hwf
  cases hc : r.circuit with
  | none => rw [hc] at hwf; simp at hwf
  | some c =>
  rw [hc] at hwf
  simp only [Option.map_some', Option.getD_some] at hwf
  cases hl : c.location with
  | none => rw [hl] at hwf; simp at hwf
  | some l =>
  rw [hl] at hwf
  simp only [Option.map_some', Option.getD_some] at hwf
  simp only [Bool.and_eq_true] at hwf
  obtain ⟨⟨⟨⟨hnm, hu⟩, hsz⟩, hrd⟩, ⟨⟨hcid, hcn⟩, hcu⟩, ⟨⟨hlat, hlon⟩, hloc⟩, hcty⟩ := hwf
  obtain ⟨nm, hnm⟩ := Option.isSome_iff_exists.mp hnm
  obtain ⟨u, hu⟩ := Option.isSome_iff_exists.mp hu
  obtain ⟨sz, hsz⟩ := Option.isSome_iff_exists.mp hsz
  obtain ⟨rd, hrd⟩ := Option.isSome_iff_exists.mp hrd
  obtain ⟨cid, hcid⟩ := Option.isSome_iff_exists.mp hcid
  obtain ⟨cn, hcn⟩ := Option.isSome_iff_exists.mp hcn
  obtain ⟨cu, hcu⟩ := Option.isSome_iff_exists.mp hcu
  obtain ⟨la, hla⟩ := Option.isSome_iff_exists.mp hlat
  obtain ⟨lo, hlo⟩ := Option.isSome_iff_exists.mp hlon
  obtain ⟨lc, hlc⟩ := Option.isSome_iff_exists.mp hloc
  obtain ⟨ct, hct⟩ := Option.isSome_iff_exists.mp hcty
  obtain ⟨gv, hgv⟩ := gridFieldOf_wf_ok env c r et sz rd cid hsz hrd hcid henv
  unfold createDiscordEmbed
  simp only [hc, hl, hnm, hu, hsz, hrd, hcn, hcu, hla, hlo, hlc, hct, getKey,
    Except.bind, bind, hgv]
  exact ⟨_, rfl⟩

/-- On a well-formed record and grid outcomes, `evaluate` never raises. -/
theorem evaluate_wf_ok (lead : Nat) (now : Int) (env : Fetched) (jobs : List Job)
    (r : RaceInfo) (et : EventType)
    (hwf : wellFormedRace r = true) (henv : envGridOk env = true) :
    ∃ js, scheduleEventNotification lead now env jobs r et = Except.ok js := by
  cases hfmt : formatEventTime r et with
  | none =>
    refine ⟨jobs, ?_⟩
    unfold scheduleEventNotification
    rw [hfmt]
  | some p =>
    obtain ⟨ts, dt⟩ := p
    by_cases hlt : now < dt.timestamp - (lead * 60 : Nat)
    · obtain ⟨e, he⟩ := createDiscordEmbed_wf_ok env r et ts dt hwf henv
      have hnm : r.raceName.isSome = true := by
        unfold wellFormedRace at hwf
        simp only [Bool.and_eq_true] at hwf
        exact hwf.1.1.1.1
      have hsz : r.season.isSome = true := by
        unfold wellFormedRace at hwf
        simp only [Bool.and_eq_true] at hwf
        exact hwf.1.1.2
      have hrd : r.round.isSome = true := by
        unfold wellFormedRace at hwf
        simp only [Bool.and_eq_true] at hwf
        exact hwf.1.2
      obtain ⟨nm, hnm⟩ := Option.isSome_iff_exists.mp hnm
      obtain ⟨sz, hsz⟩ := Option.isSome_iff_exists.mp hsz
      obtain ⟨rd, hrd⟩ := Option.isSome_iff_exists.mp hrd
      refine ⟨addJob jobs
        ⟨jobIdOf sz rd et, dt.timestamp - (lead * 60 : Nat), e.1⟩, ?_⟩
      unfold scheduleEventNotification
      rw [hfmt]
      simp only [if_pos hlt, hnm, hsz, hrd, he, getKey, Except.bind, bind,
        Except.ok.injEq]
    · refine ⟨jobs, ?_⟩
      unfold scheduleEventNotification
      rw [hfmt]
      dsimp only
      rw [if_neg hlt]

/-- A fold in `Except` whose every step succeeds on list members succeeds. -/
theorem foldlM_ok {β : Type} (f : List Job → β → Except PyErr (List Job)) :
    ∀ (l : List β), (∀ js x, x ∈ l → ∃ js', f js x = Except.ok js') →
      ∀ init, ∃ out, l.foldlM f init = Except.ok out
  | [], _, init => ⟨init, rfl⟩
  | x :: xs, h, init => by
    obtain ⟨js1, h1⟩ := h init x (List.mem_cons_self x xs)
    rw [List.foldlM_cons, h1]
    show ∃ out, xs.foldlM f js1 = Except.ok out
    exact foldlM_ok f xs (fun js y hy => h js y (List.mem_cons_of_mem x hy)) js1

/-- C6 (amended): sessions whose time resolution fails, or whose fire
instant has passed, are skipped without aborting the pass; but an uncaught
`KeyError` during payload construction (missing record or grid fields)
aborts the remaining iterations.  When every record and the grid outcome are
well-formed, the full pass over all weekends and event types completes. -/
theorem pass_isolation_amended (lead : Nat) (now : Int) (env : Fetched)
    (schedule : List RaceInfo) :
    (∀ jobs r et, formatEventTime r et = none →
      scheduleEventNotification lead now env jobs r et = Except.ok jobs) ∧
    (∀ jobs r et ts dt, formatEventTime r et = some (ts, dt) →
      dt.timestamp - (lead * 60 : Nat) ≤ now →
      scheduleEventNotification lead now env jobs r et = Except.ok jobs) ∧
    (envGridOk env = true → (∀ r ∈ schedule, wellFormedRace r = true) →
      ∃ out, runPass lead now env schedule = Except.ok out) := by
  refine ⟨?_, ?_, ?_⟩
  · intro jobs r et h
    unfold scheduleEventNotification
    rw [h]
  · intro jobs r et ts dt h hle
    unfold scheduleEventNotification
    rw [h]
    exact if_neg (not_lt.mpr hle)
  · intro henv hall
    unfold runPass
    refine foldlM_ok _ schedule (fun js r hr => ?_) []
    exact foldlM_ok (fun js et => scheduleEventNotification lead now env js r et)
      EVENT_TYPES_PASS
      (fun js et _ => evaluate_wf_ok lead now env js r et (hall r hr) henv) js

/-- Witness for the amended C6: a one-weekend well-formed schedule completes,
and an unresolvable session is skipped without error. -/
theorem pass_isolation_amended_witness :
    (∃ out, runPass 180 0 envW [raceW] = Except.ok out) ∧
    scheduleEventNotification 180 0 envW [] rNoQual EventType.Sprint = Except.ok [] :=
  ⟨(pass_isolation_amended 180 0 envW [raceW]).2.2 (by decide) (by decide),
    (pass_isolation_amended 180 0 envW []).1 [] rNoQual EventType.Sprint (by decide)⟩

/-! ### Rejection of offset-suffixed time strings (claim C9) -/

/-- `splitFirst` decomposes its input at a first occurrence. -/
theorem splitFirst_spec (c : Char) : ∀ (cs a b : List Char),
    splitFirst c cs = some (a, b) → cs = a ++ c :: b ∧ c ∉ a
  | [], a, b, h => by simp [splitFirst] at h
  | x :: xs, a, b, h => by
    unfold splitFirst at h
    by_cases hx : x = c
    · rw [if_pos hx] at h
      obtain ⟨ha, hb⟩ := Prod.mk.inj (Option.some.inj h)
      rw [← ha, ← hb, hx]
      exact ⟨rfl, List.not_mem_nil _⟩
    · rw [if_neg hx] at h
      cases hs : splitFirst c xs with
      | none => rw [hs] at h; simp at h
      | some p =>
        obtain ⟨a', b'⟩ := p
        rw [hs] at h
        simp only [Option.map_some'] at h
        obtain ⟨ha, hb⟩ := Prod.mk.inj (Option.some.inj h)
        obtain ⟨hcs, hmem⟩ := splitFirst_spec c xs a' b' hs
        rw [← ha, ← hb]
        constructor
        · rw [hcs]
          rfl
        · intro hm
          rcases List.mem_cons.mp hm with heq | hm2
          · exact hx heq.symm
          · exact hmem hm2

/-- `splitFirst` fails exactly on lists not containing the character. -/
theorem splitFirst_none (c : Char) : ∀ (cs : List Char),
    splitFirst c cs = none → c ∉ cs
  | [], _ => List.not_mem_nil c
  | x :: xs, h => by
    unfold splitFirst at h
    by_cases hx : x = c
    · rw [if_pos hx] at h
      simp at h
    · rw [if_neg hx] at h
      intro hmem
      rcases List.mem_cons.mp hmem with heq | hm2
      · exact hx heq.symm
      · cases hs : splitFirst c xs with
        | none => exact splitFirst_none c xs hs hm2
        | some p => rw [hs] at h; simp at h

/-- The offset parser accepts only five-character lists. -/
theorem parseOffset_length (cs : List Char) (v : Nat) (h : parseOffset cs = some v) :
    cs.length = 5 := by
  unfold parseOffset at h
  split at h
  · simp
  · simp at h

/-- A suffix cut at a first occurrence is at least as long as a suffix cut
at any occurrence. -/
theorem splitFirst_longest {c : Char} : ∀ (a b p q : List Char),
    a ++ c :: b = p ++ c :: q → c ∉ a → q.length ≤ b.length
  | [], b, p, q, h, _ => by
    cases p with
    | nil =>
      simp only [List.nil_append, List.cons.injEq] at h
      rw [h.2]
    | cons y ys =>
      simp only [List.nil_append, List.cons_append, List.cons.injEq] at h
      rw [h.2]
      simp [List.length_append]
      omega
  | x :: xs, b, p, q, h, hna => by
    have hxc : ¬ (x = c) := fun he => hna (he ▸ List.mem_cons_self x xs)
    cases p with
    | nil =>
      simp only [List.cons_append, List.nil_append, List.cons.injEq] at h
      exact absurd h.1 hxc
    | cons y ys =>
      simp only [List.cons_append, List.cons.injEq] at h
      exact splitFirst_longest xs b ys q h.2
        (fun hm => hna (List.mem_cons_of_mem x hm))

/-- The time-of-day section parser rejects a string that already carried a
`[+-]HH:MM` offset before the appended `+00:00`: whichever sign the section
is split at, the part after it is not a five-character offset. -/
theorem parseTimeSection_reject (M : List Char) (sgn o1 o2 o3 o4 : Char)
    (hsgn : sgn = '+' ∨ sgn = '-') :
    parseTimeSection (M ++ sgn :: o1 :: o2 :: ':' :: o3 :: o4
      :: '+' :: '0' :: '0' :: ':' :: '0' :: '0' :: []) = none := by
  unfold parseTimeSection
  cases hsm : splitFirst '-' (M ++ sgn :: o1 :: o2 :: ':' :: o3 :: o4
      :: '+' :: '0' :: '0' :: ':' :: '0' :: '0' :: []) with
  | some p =>
    obtain ⟨a, b⟩ := p
    obtain ⟨hdec, _⟩ := splitFirst_spec '-' _ a b hsm
    cases ho : parseOffset b with
    | none =>
      dsimp only
      rw [ho]
      cases parseHMS a <;> rfl
    | some off =>
      exfalso
      have hb5 : b.length = 5 := parseOffset_length b off ho
      have hdec2 : (M ++ sgn :: o1 :: o2 :: ':' :: o3 :: o4
            :: '+' :: '0' :: '0' :: ':' :: '0' :: '0' :: [])
          = (M ++ sgn :: o1 :: o2 :: ':' :: o3 :: o4 :: ['+', '0', '0'])
            ++ ':' :: ['0', '0'] := by
        simp
      have hdec3 : a ++ '-' :: b = (M ++ sgn :: o1 :: o2 :: ':' :: o3 :: o4
          :: '+' :: '0' :: '0' :: ':' :: '0' :: '0' :: []) := hdec.symm
      have hlen : List.length (a ++ '-' :: b)
          = M.length + 12 := by
        rw [hdec3]
        simp [List.length_append]
      have halen : a.length = M.length + 6 := by
        rw [List.length_append] at hlen
        simp at hlen
        omega
      have hsplit : a ++ '-' :: b
          = (M ++ sgn :: o1 :: o2 :: ':' :: o3 :: o4 :: []) ++ '+' :: ('0' :: '0' :: ':' :: '0' :: '0' :: []) := by
        rw [hdec3]
        simp
      have hlen2 : a.length = (M ++ sgn :: o1 :: o2 :: ':' :: o3 :: o4 :: []).length := by
        rw [halen]
        simp [List.length_append]
      obtain ⟨_, hcons⟩ := List.append_inj hsplit hlen2
      exact absurd (List.head_eq_of_cons_eq hcons) (by decide)
  | none =>
    have hmm : '-' ∉ (M ++ sgn :: o1 :: o2 :: ':' :: o3 :: o4
        :: '+' :: '0' :: '0' :: ':' :: '0' :: '0' :: []) := splitFirst_none '-' _ hsm
    have hsplus : sgn = '+' := by
      rcases hsgn with h | h
      · exact h
      · exact absurd (h ▸ List.mem_append_right M (List.mem_cons_self _ _)) hmm
    subst hsplus
    cases hsp : splitFirst '+' (M ++ '+' :: o1 :: o2 :: ':' :: o3 :: o4
        :: '+' :: '0' :: '0' :: ':' :: '0' :: '0' :: []) with
    | none =>
      exact absurd (List.mem_append_right M (List.mem_cons_self _ _))
        (splitFirst_none '+' _ hsp)
    | some p =>
      obtain ⟨a, b⟩ := p
      obtain ⟨hdec, hna⟩ := splitFirst_spec '+' _ a b hsp
      cases ho : parseOffset b with
      | none =>
        dsimp only
        rw [ho]
        cases parseHMS a <;> rfl
      | some off =>
        exfalso
        have hb5 : b.length = 5 := parseOffset_length b off ho
        have hge : (o1 :: o2 :: ':' :: o3 :: o4
              :: '+' :: '0' :: '0' :: ':' :: '0' :: '0' :: []).length ≤ b.length :=
          splitFirst_longest a b M _ hdec.symm hna
        simp at hge
        omega

/-- A successful ten-character date parse contains only digits and dashes. -/
theorem parseDate10_chars (cs : List Char) (v : Nat × Nat × Nat)
    (h : parseDate10 cs = some v) : ∀ ch ∈ cs, ch.isDigit = true ∨ ch = '-' := by
  unfold parseDate10 at h
  split at h
  · rename_i y1 y2 y3 y4 s1 mo1 mo2 s2 d1 d2
    split at h
    · rename_i hcond
      simp only [Bool.and_eq_true, decide_eq_true_eq] at hcond
      obtain ⟨⟨⟨⟨⟨⟨⟨⟨⟨hy1, hy2⟩, hy3⟩, hy4⟩, hs1⟩, hmo1⟩, hmo2⟩, hs2⟩, hd1⟩, hd2⟩ := hcond
      intro ch hch
      simp only [List.mem_cons, List.not_mem_nil, or_false] at hch
      rcases hch with rfl | rfl | rfl | rfl | rfl | rfl | rfl | rfl | rfl | rfl
      · exact Or.inl hy1
      · exact Or.inl hy2
      · exact Or.inl hy3
      · exact Or.inl hy4
      · exact Or.inr hs1
      · exact Or.inl hmo1
      · exact Or.inl hmo2
      · exact Or.inr hs2
      · exact Or.inl hd1
      · exact Or.inl hd2
    · simp at h
  · simp at h

/-- `fromisoformat` rejects every string of the shape
`<date-part> T <time-part> [+-]HH:MM +00:00`: the appended `+00:00` always
leaves more than a five-character tail after the first sign of the time
section, and when the `T` is misaligned the date part cannot parse. -/
theorem parseIsoChars_reject (P M : List Char) (sgn o1 o2 o3 o4 : Char)
    (hsgn : sgn = '+' ∨ sgn = '-') :
    parseIsoChars (P ++ 'T' :: (M ++ sgn :: o1 :: o2 :: ':' :: o3 :: o4
      :: '+' :: '0' :: '0' :: ':' :: '0' :: '0' :: [])) = none := by
  unfold parseIsoChars
  rcases lt_trichotomy P.length 10 with hlt | heq | hgt
  · have hT : 'T' ∈ (P ++ 'T' :: (M ++ sgn :: o1 :: o2 :: ':' :: o3 :: o4
        :: '+' :: '0' :: '0' :: ':' :: '0' :: '0' :: [])).take 10 := by
      rw [List.take_append_eq_append_take]
      refine List.mem_append_right _ ?_
      cases hk : 10 - P.length with
      | zero => omega
      | succ k =>
        rw [List.take_succ_cons]
        exact List.mem_cons_self _ _
    cases hd : parseDate10 ((P ++ 'T' :: (M ++ sgn :: o1 :: o2 :: ':' :: o3 :: o4
        :: '+' :: '0' :: '0' :: ':' :: '0' :: '0' :: [])).take 10) with
    | none => rfl
    | some v =>
      exfalso
      rcases parseDate10_chars _ v hd 'T' hT with hdig | hdash
      · exact absurd hdig (by decide)
      · exact absurd hdash (by decide)
  · have ht : (P ++ 'T' :: (M ++ sgn :: o1 :: o2 :: ':' :: o3 :: o4
        :: '+' :: '0' :: '0' :: ':' :: '0' :: '0' :: [])).take 10 = P := by
      rw [← heq]
      exact List.take_left P _
    have hdr : (P ++ 'T' :: (M ++ sgn :: o1 :: o2 :: ':' :: o3 :: o4
        :: '+' :: '0' :: '0' :: ':' :: '0' :: '0' :: [])).drop 10
        = 'T' :: (M ++ sgn :: o1 :: o2 :: ':' :: o3 :: o4
          :: '+' :: '0' :: '0' :: ':' :: '0' :: '0' :: []) := by
      rw [← heq]
      exact List.drop_left P _
    rw [ht, hdr]
    cases parseDate10 P with
    | none => rfl
    | some v =>
      obtain ⟨y, mo, d⟩ := v
      dsimp only
      rw [if_pos rfl, parseTimeSection_reject M sgn o1 o2 o3 o4 hsgn]
      rfl
  · have h10 : (P ++ 'T' :: (M ++ sgn :: o1 :: o2 :: ':' :: o3 :: o4
        :: '+' :: '0' :: '0' :: ':' :: '0' :: '0' :: [])).take 10 = P.take 10 := by
      rw [List.take_append_eq_append_take]
      have : 10 - P.length = 0 := by omega
      rw [this]
      simp
    have hdr : (P ++ 'T' :: (M ++ sgn :: o1 :: o2 :: ':' :: o3 :: o4
        :: '+' :: '0' :: '0' :: ':' :: '0' :: '0' :: [])).drop 10
        = P.drop 10 ++ 'T' :: (M ++ sgn :: o1 :: o2 :: ':' :: o3 :: o4
          :: '+' :: '0' :: '0' :: ':' :: '0' :: '0' :: []) := by
      rw [List.drop_append_eq_append_drop]
      have : 10 - P.length = 0 := by omega
      rw [this]
      simp
    rw [h10, hdr]
    cases parseDate10 (P.take 10) with
    | none => rfl
    | some v =>
      obtain ⟨y, mo, d⟩ := v
      have hne : P.drop 10 ≠ [] := by
        intro hnil
        have := congrArg List.length hnil
        simp [List.length_drop] at this
        omega
      obtain ⟨c, cs', hcons⟩ := List.exists_cons_of_ne_nil hne
      rw [hcons, List.cons_append]
      by_cases hcT : c = 'T'
      · subst hcT
        dsimp only
        rw [if_pos rfl]
        have hassoc : cs' ++ 'T' :: (M ++ sgn :: o1 :: o2 :: ':' :: o3 :: o4
              :: '+' :: '0' :: '0' :: ':' :: '0' :: '0' :: [])
            = (cs' ++ 'T' :: M) ++ sgn :: o1 :: o2 :: ':' :: o3 :: o4
              :: '+' :: '0' :: '0' :: ':' :: '0' :: '0' :: [] := by
          simp
        rw [hassoc, parseTimeSection_reject (cs' ++ 'T' :: M) sgn o1 o2 o3 o4 hsgn]
        rfl
      · dsimp only
        rw [if_neg hcT]

/-- Characters other than `Z` are left unchanged by the replacement. -/
theorem replZChar_ne (c : Char) (hc : ¬ c = 'Z') : replZChar c = [c] := by
  simp [replZChar, hc]

/-- A decimal digit is not the letter `Z`. -/
theorem digit_ne_letter (c : Char) (hc : c.isDigit = true) : ¬ c = 'Z' := by
  intro he
  rw [he] at hc
  exact absurd hc (by decide)

/-- C9: a weekend record whose time string ends in a numeric `[+-]HH:MM`
timezone offset (so not in a trailing `Z`) resolves to "unavailable": the
code appends a `Z`, the replacement turns it into a second `+00:00` offset,
the parse of the doubly-offset string fails, and the failure is caught. -/
theorem resolver_offset_unavailable (r : RaceInfo) (et : EventType)
    (d tb : String) (sgn o1 o2 o3 o4 : Char)
    (hraw : rawFields r et
      = some (some d, some (tb ++ String.mk [sgn, o1, o2, ':', o3, o4])))
    (hsgn : sgn = '+' ∨ sgn = '-')
    (h1 : o1.isDigit = true) (h2 : o2.isDigit = true)
    (h3 : o3.isDigit = true) (h4 : o4.isDigit = true) :
    pyEndsWithZ (tb ++ String.mk [sgn, o1, o2, ':', o3, o4]) = false ∧
    formatEventTime r et = none := by
  have hsgnZ : ¬ sgn = 'Z' := by rcases hsgn with rfl | rfl <;> decide
  have hend : pyEndsWithZ (tb ++ String.mk [sgn, o1, o2, ':', o3, o4]) = false := by
    unfold pyEndsWithZ
    rw [String.data_append]
    have hmk : (String.mk [sgn, o1, o2, ':', o3, o4]).data
        = [sgn, o1, o2, ':', o3, o4] := rfl
    rw [hmk, List.getLast?_append]
    have hlast : ([sgn, o1, o2, ':', o3, o4] : List Char).getLast? = some o4 := rfl
    rw [hlast]
    show ((some o4 : Option Char) == some 'Z') = false
    simp only [beq_eq_false_iff_ne, ne_eq, Option.some.injEq]
    exact digit_ne_letter o4 h4
  refine ⟨hend, ?_⟩
  unfold formatEventTime
  rw [hraw]
  dsimp only
  split
  · rfl
  · simp only [hend, Bool.false_eq_true, if_false]
    have hdata : (pyReplaceZ (d ++ "T"
          ++ ((tb ++ String.mk [sgn, o1, o2, ':', o3, o4]) ++ "Z"))).data
        = (d.data.flatMap replZChar) ++ 'T'
          :: ((tb.data.flatMap replZChar) ++ sgn :: o1 :: o2 :: ':' :: o3 :: o4
            :: '+' :: '0' :: '0' :: ':' :: '0' :: '0' :: []) := by
      show ((d ++ "T" ++ ((tb ++ String.mk [sgn, o1, o2, ':', o3, o4]) ++ "Z")).data.flatMap
        replZChar) = _
      rw [String.data_append, String.data_append, String.data_append,
        String.data_append]
      have hmk : (String.mk [sgn, o1, o2, ':', o3, o4]).data
          = [sgn, o1, o2, ':', o3, o4] := rfl
      rw [hmk]
      rw [List.flatMap_append, List.flatMap_append, List.flatMap_append,
        List.flatMap_append]
      have hT : ("T" : String).data.flatMap replZChar = ['T'] := rfl
      have hZ : ("Z" : String).data.flatMap replZChar
          = ['+', '0', '0', ':', '0', '0'] := rfl
      have hmid : ([sgn, o1, o2, ':', o3, o4] : List Char).flatMap replZChar
          = [sgn, o1, o2, ':', o3, o4] := by
        simp only [List.flatMap_cons, List.flatMap_nil,
          replZChar_ne sgn hsgnZ, replZChar_ne o1 (digit_ne_letter o1 h1),
          replZChar_ne o2 (digit_ne_letter o2 h2),
          replZChar_ne o3 (digit_ne_letter o3 h3),
          replZChar_ne o4 (digit_ne_letter o4 h4)]
        rfl
      rw [hT, hZ, hmid]
      simp
    unfold pyFromIso
    rw [hdata, parseIsoChars_reject (d.data.flatMap replZChar)
      (tb.data.flatMap replZChar) sgn o1 o2 o3 o4 hsgn]

/-- A weekend record whose race time string carries a `+02:00` offset. -/
def rOffset : RaceInfo := { rNoQual with time := some "14:00:00+02:00" }

/-- Witness for C9: the offset-suffixed time string does not end in `Z` and
the resolver returns "unavailable" for it. -/
theorem resolver_offset_witness :
    pyEndsWithZ "14:00:00+02:00" = false ∧
    formatEventTime rOffset EventType.Race = none := by
  have h := resolver_offset_unavailable rOffset EventType.Race "2099-06-09" "14:00:00"
    '+' '0' '2' '0' '0' (by decide) (Or.inl rfl)
    (by decide) (by decide) (by decide) (by decide)
  exact ⟨h.1, h.2⟩

end F1
